import Mathlib

/-!
Verification of the Sandbox Session Orchestrator (the `MinecraftContainer`
Durable-Object class).  Each definition below is a shallow embedding of the
corresponding TypeScript function; JavaScript objects (`Record<string,string>`)
are modelled as association lists with lookup `objGet` and JS-assignment
`objSet`, platform primitives (PBKDF2, the CSPRNG, TCP/RCON I/O and the
container-status host call) are modelled as explicit oracle parameters, and
`async` functions that can reject are modelled with `Except`.
-/

/-- Lookup of a key in a JS object modelled as an association list
(first match, as JS objects never hold duplicate keys). -/
def objGet {α : Type} (o : List (String × α)) (k : String) : Option α :=
  match o with
  | [] => none
  | p :: rest => if p.1 = k then some p.2 else objGet rest k

/-- JS property assignment `o[k] = v`: replaces the value of an existing key
in place, otherwise appends the key at the end (JS insertion order). -/
def objSet {α : Type} (o : List (String × α)) (k : String) (v : α) : List (String × α) :=
  match o with
  | [] => [(k, v)]
  | p :: rest => if p.1 = k then (k, v) :: rest else p :: objSet rest k v

/-- Keys of an object, used to state the JS no-duplicate-keys invariant. -/
def objKeys {α : Type} (o : List (String × α)) : List String :=
  o.map Prod.fst

theorem objGet_objSet_self {α : Type} (o : List (String × α)) (k : String) (v : α) :
    objGet (objSet o k v) k = some v := by
  induction o with
  | nil => simp [objGet, objSet]
  | cons p rest ih =>
    by_cases h : p.1 = k
    · simp [objGet, objSet, h]
    · simp [objGet, objSet, h, ih]

theorem objGet_objSet_ne {α : Type} (o : List (String × α)) (k k' : String) (v : α)
    (h : k' ≠ k) : objGet (objSet o k v) k' = objGet o k' := by
  induction o with
  | nil =>
    simp only [objSet, objGet]
    exact if_neg (fun hk : k = k' => h hk.symm)
  | cons p rest ih =>
    by_cases hp : p.1 = k
    · simp only [objSet, if_pos hp, objGet]
      rw [if_neg (fun hk : k = k' => h hk.symm),
        if_neg (fun hk : p.1 = k' => h ((hp.symm.trans hk).symm))]
    · simp only [objSet, if_neg hp, objGet]
      by_cases hp' : p.1 = k'
      · rw [if_pos hp', if_pos hp']
      · rw [if_neg hp', if_neg hp', ih]

theorem objGet_eq_none_of_not_mem_keys {α : Type} (o : List (String × α)) (k : String)
    (h : k ∉ objKeys o) : objGet o k = none := by
  induction o with
  | nil => rfl
  | cons p rest ih =>
    simp only [objKeys, List.map_cons, List.mem_cons, not_or] at h
    obtain ⟨h1, h2⟩ := h
    simp only [objGet, if_neg (fun hk : p.1 = k => h1 hk.symm)]
    exact ih (by simpa [objKeys] using h2)

theorem mem_objKeys_objSet {α : Type} (o : List (String × α)) (k x : String) (v : α) :
    x ∈ objKeys (objSet o k v) ↔ x ∈ objKeys o ∨ x = k := by
  induction o with
  | nil => simp [objSet, objKeys]
  | cons p rest ih =>
    by_cases hp : p.1 = k
    · rw [show objSet (p :: rest) k v = (k, v) :: rest from by simp [objSet, hp]]
      subst hp
      simp only [objKeys, List.map_cons, List.mem_cons]
      tauto
    · rw [show objSet (p :: rest) k v = p :: objSet rest k v from by simp [objSet, hp]]
      simp only [objKeys, List.map_cons, List.mem_cons] at ih ⊢
      rw [ih]
      tauto

theorem nodupKeys_objSet {α : Type} (o : List (String × α)) (k : String) (v : α)
    (h : (objKeys o).Nodup) : (objKeys (objSet o k v)).Nodup := by
  induction o with
  | nil => simp [objSet, objKeys]
  | cons p rest ih =>
    simp only [objKeys, List.map_cons, List.nodup_cons] at h
    by_cases hp : p.1 = k
    · simp only [objSet, if_pos hp, objKeys, List.map_cons, List.nodup_cons]
      exact ⟨hp ▸ h.1, h.2⟩
    · simp only [objSet, if_neg hp, objKeys, List.map_cons, List.nodup_cons]
      refine ⟨?_, ih h.2⟩
      intro hmem
      rcases (mem_objKeys_objSet rest k p.1 v).mp hmem with hin | hk
      · exact h.1 hin
      · exact hp hk

/-!  ## Base64url encoding (`base64urlEncode`)

The source builds a binary string from the bytes, applies `btoa` (standard
base64 with `=` padding), then rewrites `+`→`-`, `/`→`_` and strips the
trailing `=` padding. -/

def base64Chars : List Char :=
  "ABCDEFGHIJKLMNOPQRSTUVWXYZabcdefghijklmnopqrstuvwxyz0123456789+/".data

def base64Char (i : Nat) : Char := base64Chars.getD i 'A'

/-- `btoa` on a byte list: three bytes become four alphabet characters, the
final one- or two-byte group is padded with `=`. -/
def base64Groups : List Nat → List Char
  | [] => []
  | [b1] => [base64Char (b1 / 4), base64Char (b1 % 4 * 16), '=', '=']
  | [b1, b2] => [base64Char (b1 / 4), base64Char (b1 % 4 * 16 + b2 / 16),
      base64Char (b2 % 16 * 4), '=']
  | b1 :: b2 :: b3 :: rest =>
    base64Char (b1 / 4) :: base64Char (b1 % 4 * 16 + b2 / 16) ::
      base64Char (b2 % 16 * 4 + b3 / 64) :: base64Char (b3 % 64) :: base64Groups rest

/-- `base64urlEncode` from the source: `btoa` then
`.replace(/\+/g,'-').replace(/\//g,'_').replace(/=+$/g,'')`. -/
def base64urlEncode (bytes : List Nat) : String :=
  let replaced := (base64Groups bytes).map
    (fun c => if c = '+' then '-' else if c = '/' then '_' else c)
  String.mk ((replaced.reverse.dropWhile (fun c => c = '=')).reverse)

/-!  ## Authentication (`setupPassword`, `verifyPassword`, `isPasswordSet`)

The durable `auth` table holds at most one row; `AuthState.auth` is that row
and `AuthState.pwdSetFlag` is the in-memory `_isPasswordSet` flag.  PBKDF2
(`derivePasswordHash`, SHA-256, 100000 iterations via `crypto.subtle`) is
modelled as an abstract deterministic function parameter `kdf`, and the two
`generateRandomBytes` draws of `setupPassword` as explicit byte-list
parameters. -/

structure AuthRecord where
  salt : String
  password_hash : String
  sym_key : String
  created_at : Nat
deriving DecidableEq

structure AuthState where
  auth : Option AuthRecord
  pwdSetFlag : Bool
deriving DecidableEq

/-- Fresh durable identity: empty `auth` table, so the constructor leaves
`_isPasswordSet` false. -/
def freshAuthState : AuthState := ⟨none, false⟩

structure SetupResult where
  created : Bool
  symKey : Option String
deriving DecidableEq

/-- `isPasswordSet()` returns the cached `_isPasswordSet` flag. -/
def isPasswordSet (s : AuthState) : Bool := s.pwdSetFlag

/-- `setupPassword`: pre-generates salt (16 random bytes), symmetric key
(32 random bytes) and the derived hash, then inside the transaction returns
`created: false` untouched if an auth row exists, else inserts the row and
flips the flag.  `salt16` and `symKey32` are the byte lists returned by
`generateRandomBytes(16)` and `generateRandomBytes(32)`. -/
def setupPassword (kdf : String → String → String) (salt16 symKey32 : List Nat)
    (now : Nat) (password : String) (s : AuthState) : SetupResult × AuthState :=
  let saltB64 := base64urlEncode salt16
  let symKeyB64 := base64urlEncode symKey32
  let hash := kdf password saltB64
  match s.auth with
  | some _ => (⟨false, none⟩, s)
  | none => (⟨true, some symKeyB64⟩, ⟨some ⟨saltB64, hash, symKeyB64, now⟩, true⟩)

/-- `timingSafeEqualAscii`: length check, then OR-accumulated XOR of the
per-index char codes; equal iff the accumulator is zero. -/
def timingSafeEqualAscii (a b : String) : Bool :=
  if a.length ≠ b.length then false
  else ((a.data.zip b.data).foldl (fun m p => m ||| (p.1.toNat ^^^ p.2.toNat)) 0) == 0

structure VerifyResult where
  ok : Bool
deriving DecidableEq

/-- `verifyPassword`: loads the auth row (the `.one()` throw on an empty
table is caught and becomes `ok: false`), re-derives the hash with the
stored salt and compares with `timingSafeEqualAscii`. -/
def verifyPassword (kdf : String → String → String) (password : String)
    (s : AuthState) : VerifyResult :=
  match s.auth with
  | none => ⟨false⟩
  | some row => ⟨timingSafeEqualAscii (kdf password row.salt) row.password_hash⟩

theorem nat_or_eq_zero (a b : Nat) : a ||| b = 0 ↔ a = 0 ∧ b = 0 := by
  constructor
  · intro h
    have hbits : ∀ i, a.testBit i = false ∧ b.testBit i = false := by
      intro i
      have hz := congrArg (fun n => Nat.testBit n i) h
      simp only [Nat.testBit_or, Nat.zero_testBit, Bool.or_eq_false_iff] at hz
      exact hz
    exact ⟨Nat.zero_of_testBit_eq_false (fun i => (hbits i).1),
      Nat.zero_of_testBit_eq_false (fun i => (hbits i).2)⟩
  · rintro ⟨rfl, rfl⟩
    rfl

theorem char_toNat_inj (c d : Char) (h : c.toNat = d.toNat) : c = d :=
  Char.eq_of_val_eq (UInt32.ext h)

theorem tse_foldl_eq_zero (l : List (Char × Char)) (m : Nat) :
    l.foldl (fun m p => m ||| (p.1.toNat ^^^ p.2.toNat)) m = 0 ↔
      m = 0 ∧ ∀ p ∈ l, p.1 = p.2 := by
  induction l generalizing m with
  | nil => simp
  | cons q t ih =>
    simp only [List.foldl_cons, ih, nat_or_eq_zero, Nat.xor_eq_zero, List.mem_cons]
    constructor
    · rintro ⟨⟨hm, hq⟩, ht⟩
      exact ⟨hm, fun p hp => by
        rcases hp with rfl | hp
        · exact char_toNat_inj _ _ hq
        · exact ht p hp⟩
    · rintro ⟨hm, hall⟩
      exact ⟨⟨hm, by rw [hall q (Or.inl rfl)]⟩, fun p hp => hall p (Or.inr hp)⟩

theorem list_eq_of_zip_eq (l₁ l₂ : List Char) (hlen : l₁.length = l₂.length)
    (h : ∀ p ∈ l₁.zip l₂, p.1 = p.2) : l₁ = l₂ := by
  induction l₁ generalizing l₂ with
  | nil => cases l₂ with
    | nil => rfl
    | cons b t => simp at hlen
  | cons a t ih =>
    cases l₂ with
    | nil => simp at hlen
    | cons b t' =>
      simp only [List.zip_cons_cons, List.mem_cons] at h
      simp only [List.length_cons, Nat.succ.injEq] at hlen
      have hab : a = b := h (a, b) (Or.inl rfl)
      have ht : t = t' := ih t' hlen (fun p hp => h p (Or.inr hp))
      rw [hab, ht]

theorem mem_zip_self {l : List Char} {p : Char × Char} (h : p ∈ l.zip l) : p.1 = p.2 := by
  induction l with
  | nil => simp at h
  | cons a t ih =>
    simp only [List.zip_cons_cons, List.mem_cons] at h
    rcases h with rfl | h
    · rfl
    · exact ih h

/-- The constant-time comparator decides string equality. -/
theorem timingSafeEqualAscii_iff (a b : String) :
    timingSafeEqualAscii a b = true ↔ a = b := by
  unfold timingSafeEqualAscii
  by_cases hlen : a.length = b.length
  · rw [if_neg (fun hne : a.length ≠ b.length => hne hlen), beq_iff_eq, tse_foldl_eq_zero]
    constructor
    · rintro ⟨-, hall⟩
      have hd : a.data = b.data := list_eq_of_zip_eq _ _ hlen hall
      cases a; cases b
      exact congrArg String.mk hd
    · rintro rfl
      exact ⟨rfl, fun p hp => mem_zip_self hp⟩
  · rw [if_pos hlen]
    simp only [Bool.false_eq_true, false_iff]
    intro h
    exact hlen (congrArg String.length h)

/-!  ## Durable plugin configuration (`pluginFilenamesToEnable`, plugin env)

`PluginListState.cache` is the in-memory `_pluginFilenamesToEnable` field,
`PluginListState.stored` the `optionalPlugins` array in the `state` table's
JSON document, and `PluginListState.pluginEnv` its `pluginEnv` object
(`jsonb_patch` merge-patch semantics).  Storage reads are modelled as
succeeding (the `catch` branches for SQL failure are not taken). -/

def DYNMAP_PLUGIN_FILENAME : String := "Dynmap-3.7-beta-11-spigot"

structure EnvReq where
  name : String
  description : String
deriving DecidableEq

/-- The compiled-in plugin catalog (`getStatus` capabilities are modelled
separately, as status oracles, in `getPluginState`). -/
structure PluginSpecMeta where
  filename : String
  displayName : String
  requiredEnv : List EnvReq
deriving DecidableEq

/-- `PLUGIN_SPECS` from the source (both catalog entries declare an empty
`requiredEnv` and a `getStatus` capability). -/
def PLUGIN_SPECS : List PluginSpecMeta :=
  [⟨"Dynmap-3.7-beta-11-spigot", "DynMap", []⟩,
   ⟨"playit-minecraft-plugin", "playit.gg", []⟩]

structure PluginListState where
  cache : Option (List String)
  stored : List String
  pluginEnv : List (String × List (String × String))
deriving DecidableEq

/-- Fresh durable object: no cache, `state.json_data` is the empty document. -/
def initialPluginState : PluginListState := ⟨none, [], []⟩

/-- The `pluginFilenamesToEnable` getter: returns the cache when populated,
otherwise reads `optionalPlugins` from storage, unshifts the Dynmap filename
when absent, and populates the cache.  Returns the list together with the
possibly-updated state. -/
def pluginFilenamesToEnable (s : PluginListState) : List String × PluginListState :=
  match s.cache with
  | some l => (l, s)
  | none =>
    let parsed := s.stored
    let parsed := if parsed.contains DYNMAP_PLUGIN_FILENAME then parsed
      else DYNMAP_PLUGIN_FILENAME :: parsed
    (parsed, { s with cache := some parsed })

/-- The `pluginFilenamesToEnable` setter: overwrites the cache and
merge-patches `optionalPlugins` (an array value in a JSON merge patch is
replaced wholesale). -/
def setPluginFilenamesToEnable (s : PluginListState) (plugins : List String) :
    PluginListState :=
  { s with cache := some plugins, stored := plugins }

/-- `getConfiguredPluginEnv`: reads `$.pluginEnv."filename"`, defaulting to
the empty object. -/
def getConfiguredPluginEnv (s : PluginListState) (filename : String) :
    List (String × String) :=
  (objGet s.pluginEnv filename).getD []

/-- The loop of `setConfiguredPluginEnv`: copy `current` and assign each
supplied entry whose value is neither `undefined` nor `null` (`none`). -/
def applyEnvEntries (o : List (String × String)) (e : List (String × Option String)) :
    List (String × String) :=
  e.foldl (fun acc kv =>
    match kv.2 with
    | some v => objSet acc kv.1 v
    | none => acc) o

/-- RFC 7396 merge of two flat string-valued objects, as `jsonb_patch`
applies the written `next` object onto the stored one. -/
def mergeObj (o p : List (String × String)) : List (String × String) :=
  p.foldl (fun acc kv => objSet acc kv.1 kv.2) o

/-- `setConfiguredPluginEnv`: inside a transaction, read the current env for
the plugin, merge the non-null supplied entries over it, and `jsonb_patch`
the result back under `$.pluginEnv."filename"`. -/
def setConfiguredPluginEnv (s : PluginListState) (filename : String)
    (env : List (String × Option String)) : PluginListState :=
  let current := getConfiguredPluginEnv s filename
  let next := applyEnvEntries current env
  let patched := objSet s.pluginEnv filename (mergeObj (getConfiguredPluginEnv s filename) next)
  { s with pluginEnv := patched }

/-- `getAllConfiguredPluginEnv`: the whole `$.pluginEnv` object. -/
def getAllConfiguredPluginEnv (s : PluginListState) :
    List (String × List (String × String)) :=
  s.pluginEnv

/-- `getRequiredEnvForPlugin`: required env declared by the catalog spec,
empty for unknown filenames. -/
def getRequiredEnvForPlugin (specs : List PluginSpecMeta) (filename : String) :
    List EnvReq :=
  match specs.find? (fun sp => sp.filename == filename) with
  | some sp => sp.requiredEnv
  | none => []

/-- JS `String.prototype.trim()` on our char-list strings. -/
def jsTrim (s : String) : String :=
  String.mk (((s.data.dropWhile Char.isWhitespace).reverse.dropWhile
    Char.isWhitespace).reverse)

/-- The blank test `!configured[name] || configured[name].trim() === ''`:
an absent key is falsy, as is the empty string. -/
def envBlank : Option String → Bool
  | none => true
  | some v => v == "" || jsTrim v == ""

/-- `enablePlugin`: persist the supplied env first; then, when the spec has
required env keys, fail with the message naming the absent-or-blank ones;
otherwise append the filename (unconditionally) to the enabled list.
The first component is `Except.error msg` when the JS method throws. -/
def enablePlugin (specs : List PluginSpecMeta) (filename : String)
    (env : Option (List (String × Option String))) (s : PluginListState) :
    Except String Unit × PluginListState :=
  let s1 := match env with
    | some e => setConfiguredPluginEnv s filename e
    | none => s
  let requiredEnv := getRequiredEnvForPlugin specs filename
  if requiredEnv.length > 0 then
    let configured := getConfiguredPluginEnv s1 filename
    let missing := requiredEnv.filter (fun r => envBlank (objGet configured r.name))
    if missing.length > 0 then
      (Except.error ("Cannot enable plugin " ++ filename ++
        ": missing required environment variables: " ++
        String.intercalate ", " (missing.map (fun r => r.name))), s1)
    else
      let r := pluginFilenamesToEnable s1
      (Except.ok (), setPluginFilenamesToEnable r.2 (r.1 ++ [filename]))
  else
    let r := pluginFilenamesToEnable s1
    (Except.ok (), setPluginFilenamesToEnable r.2 (r.1 ++ [filename]))

/-- `disablePlugin`: throws on the Dynmap filename, otherwise filters the
filename out of the enabled list. -/
def disablePlugin (filename : String) (s : PluginListState) :
    Except String Unit × PluginListState :=
  if filename = DYNMAP_PLUGIN_FILENAME then
    (Except.error "Dynmap cannot be disabled", s)
  else
    let r := pluginFilenamesToEnable s
    (Except.ok (), setPluginFilenamesToEnable r.2 (r.1.filter (fun p => p != filename)))

/-- `setPluginEnv` RPC method: delegates to `setConfiguredPluginEnv`. -/
def setPluginEnv (filename : String) (env : List (String × Option String))
    (s : PluginListState) : PluginListState :=
  setConfiguredPluginEnv s filename env

inductive PluginOp where
  | enable (filename : String) (env : Option (List (String × Option String)))
  | disable (filename : String)

/-- State after one RPC call (a thrown validation error leaves the state the
call had built up to the throw). -/
def runOp (specs : List PluginSpecMeta) (s : PluginListState) :
    PluginOp → PluginListState
  | PluginOp.enable f e => (enablePlugin specs f e s).2
  | PluginOp.disable f => (disablePlugin f s).2

def runOps (specs : List PluginSpecMeta) (ops : List PluginOp)
    (s : PluginListState) : PluginListState :=
  ops.foldl (runOp specs) s

/-- C1: setupPassword is write-once: on a fresh identity (no auth row, flag
false) it returns created true with the base64url encoding of the 32 random
bytes as symKey and flips isPasswordSet from false to true; every subsequent
call, with any password and any fresh randomness, returns created false and
leaves the stored record unchanged, so verifyPassword of the original
password still succeeds. -/
theorem setupPassword_write_once (kdf : String → String → String)
    (salt1 key1 salt2 key2 : List Nat) (n1 n2 : Nat) (pw1 pw2 : String)
    (s : AuthState) (hauth : s.auth = none) (hflag : s.pwdSetFlag = false) :
    (setupPassword kdf salt1 key1 n1 pw1 s).1.created = true
    ∧ (setupPassword kdf salt1 key1 n1 pw1 s).1.symKey = some (base64urlEncode key1)
    ∧ isPasswordSet s = false
    ∧ isPasswordSet (setupPassword kdf salt1 key1 n1 pw1 s).2 = true
    ∧ setupPassword kdf salt2 key2 n2 pw2 (setupPassword kdf salt1 key1 n1 pw1 s).2
        = (⟨false, none⟩, (setupPassword kdf salt1 key1 n1 pw1 s).2)
    ∧ (verifyPassword kdf pw1 (setupPassword kdf salt1 key1 n1 pw1 s).2).ok = true := by
  obtain ⟨auth, flag⟩ := s
  have ha : auth = none := hauth
  have hf : flag = false := hflag
  subst ha
  subst hf
  exact ⟨rfl, rfl, rfl, rfl, rfl, (timingSafeEqualAscii_iff _ _).mpr rfl⟩

theorem setupPassword_write_once_witness :
    (setupPassword (fun p t => p ++ t) (List.range 16) (List.range 32) 7 "longenough1"
      ⟨none, false⟩).1.created = true
    ∧ (setupPassword (fun p t => p ++ t) (List.range 16) (List.range 32) 7 "longenough1"
        ⟨none, false⟩).1.symKey = some (base64urlEncode (List.range 32))
    ∧ isPasswordSet ⟨none, false⟩ = false
    ∧ isPasswordSet (setupPassword (fun p t => p ++ t) (List.range 16) (List.range 32) 7
        "longenough1" ⟨none, false⟩).2 = true
    ∧ setupPassword (fun p t => p ++ t) [1] [2] 9 "other"
        (setupPassword (fun p t => p ++ t) (List.range 16) (List.range 32) 7 "longenough1"
          ⟨none, false⟩).2
        = (⟨false, none⟩, (setupPassword (fun p t => p ++ t) (List.range 16) (List.range 32) 7
            "longenough1" ⟨none, false⟩).2)
    ∧ (verifyPassword (fun p t => p ++ t) "longenough1"
        (setupPassword (fun p t => p ++ t) (List.range 16) (List.range 32) 7 "longenough1"
          ⟨none, false⟩).2).ok = true :=
  setupPassword_write_once (fun p t => p ++ t) (List.range 16) (List.range 32) [1] [2]
    7 9 "longenough1" "other" ⟨none, false⟩ rfl rfl

/-- C2: verifyPassword succeeds exactly when an auth record exists and the
KDF hash of the supplied password under the stored salt equals the stored
hash (the constant-time comparator deciding string equality, by
`timingSafeEqualAscii_iff`); with no auth record it returns ok false (the
embedding is total: the `.one()` throw is caught in the source). -/
theorem verifyPassword_iff (kdf : String → String → String) (pw : String) (s : AuthState) :
    ((verifyPassword kdf pw s).ok = true ↔
      ∃ rec, s.auth = some rec ∧ kdf pw rec.salt = rec.password_hash)
    ∧ (s.auth = none → verifyPassword kdf pw s = ⟨false⟩) := by
  obtain ⟨auth, flag⟩ := s
  cases auth with
  | none =>
    constructor
    · simp [verifyPassword]
    · intro h
      rfl
  | some row =>
    constructor
    · rw [show (verifyPassword kdf pw ⟨some row, flag⟩).ok
          = timingSafeEqualAscii (kdf pw row.salt) row.password_hash from rfl,
        timingSafeEqualAscii_iff]
      constructor
      · intro h
        exact ⟨row, rfl, h⟩
      · rintro ⟨rec, hrec, hh⟩
        obtain rfl : row = rec := by simpa using hrec
        exact hh
    · intro h
      simp at h

theorem verifyPassword_iff_witness :
    verifyPassword (fun p t => p ++ t) "x" ⟨none, false⟩ = ⟨false⟩
    ∧ (verifyPassword (fun p t => p ++ t) "pw" ⟨some ⟨"salt", "pwsalt", "key", 0⟩, true⟩).ok
        = true :=
  ⟨(verifyPassword_iff (fun p t => p ++ t) "x" ⟨none, false⟩).2 rfl,
   ((verifyPassword_iff (fun p t => p ++ t) "pw"
      ⟨some ⟨"salt", "pwsalt", "key", 0⟩, true⟩).1).mpr
     ⟨⟨"salt", "pwsalt", "key", 0⟩, rfl, rfl⟩⟩


theorem fst_getter_setter (s : PluginListState) (l : List String) :
    (pluginFilenamesToEnable (setPluginFilenamesToEnable s l)).1 = l := rfl

theorem snd_getter_setter (s : PluginListState) (l : List String) :
    (pluginFilenamesToEnable (setPluginFilenamesToEnable s l)).2
      = setPluginFilenamesToEnable s l := rfl

theorem pluginFilenames_setConfiguredPluginEnv (s : PluginListState) (f : String)
    (e : List (String × Option String)) :
    (pluginFilenamesToEnable (setConfiguredPluginEnv s f e)).1
      = (pluginFilenamesToEnable s).1 := by
  cases hc : s.cache <;>
    simp [pluginFilenamesToEnable, setConfiguredPluginEnv, hc]

theorem dynmap_mem_enablePlugin (specs : List PluginSpecMeta) (f : String)
    (e : Option (List (String × Option String))) (s : PluginListState)
    (h : DYNMAP_PLUGIN_FILENAME ∈ (pluginFilenamesToEnable s).1) :
    DYNMAP_PLUGIN_FILENAME ∈ (pluginFilenamesToEnable (enablePlugin specs f e s).2).1 := by
  unfold enablePlugin
  cases e with
  | none =>
    dsimp only
    split
    · split
      · exact h
      · rw [fst_getter_setter]
        exact List.mem_append.mpr (Or.inl h)
    · rw [fst_getter_setter]
      exact List.mem_append.mpr (Or.inl h)
  | some ev =>
    dsimp only
    split
    · split
      · rw [pluginFilenames_setConfiguredPluginEnv]
        exact h
      · rw [fst_getter_setter]
        refine List.mem_append.mpr (Or.inl ?_)
        rw [pluginFilenames_setConfiguredPluginEnv]
        exact h
    · rw [fst_getter_setter]
      refine List.mem_append.mpr (Or.inl ?_)
      rw [pluginFilenames_setConfiguredPluginEnv]
      exact h

theorem dynmap_mem_disablePlugin (f : String) (s : PluginListState)
    (h : DYNMAP_PLUGIN_FILENAME ∈ (pluginFilenamesToEnable s).1) :
    DYNMAP_PLUGIN_FILENAME ∈ (pluginFilenamesToEnable (disablePlugin f s).2).1 := by
  unfold disablePlugin
  split
  · exact h
  · rename_i hf
    rw [fst_getter_setter]
    rw [List.mem_filter]
    refine ⟨h, ?_⟩
    simp only [bne_iff_ne, ne_eq]
    exact fun heq => hf heq.symm

/-- C3: for every sequence of enablePlugin/disablePlugin calls from the
fresh durable state, the Dynmap filename is a member of the list read back
through the pluginFilenamesToEnable getter, and disablePlugin on the Dynmap
filename always throws, leaving any state unchanged. -/
theorem dynmap_always_enabled (ops : List PluginOp) :
    DYNMAP_PLUGIN_FILENAME ∈
      (pluginFilenamesToEnable (runOps PLUGIN_SPECS ops initialPluginState)).1
    ∧ ∀ s : PluginListState, disablePlugin DYNMAP_PLUGIN_FILENAME s
        = (Except.error "Dynmap cannot be disabled", s) := by
  constructor
  · have main : ∀ (l : List PluginOp) (s : PluginListState),
        DYNMAP_PLUGIN_FILENAME ∈ (pluginFilenamesToEnable s).1 →
        DYNMAP_PLUGIN_FILENAME ∈ (pluginFilenamesToEnable (runOps PLUGIN_SPECS l s)).1 := by
      intro l
      induction l with
      | nil => exact fun s h => h
      | cons op rest ih =>
        intro s h
        cases op with
        | enable f e => exact ih _ (dynmap_mem_enablePlugin PLUGIN_SPECS f e s h)
        | disable f => exact ih _ (dynmap_mem_disablePlugin f s h)
    exact main ops initialPluginState (by decide)
  · intro s
    unfold disablePlugin
    rw [if_pos rfl]

/-- C4 counterexample: enabling the (already enabled) playit plugin twice
from the fresh state leaves a duplicate entry in the persisted list, so the
list is not duplicate-free and the second enable call did change it. -/
theorem enablePlugin_duplicate_cex :
    (pluginFilenamesToEnable (enablePlugin PLUGIN_SPECS "playit-minecraft-plugin" none
        (enablePlugin PLUGIN_SPECS "playit-minecraft-plugin" none
          initialPluginState).2).2).1
      = ["Dynmap-3.7-beta-11-spigot", "playit-minecraft-plugin",
          "playit-minecraft-plugin"]
    ∧ ¬ ((pluginFilenamesToEnable (enablePlugin PLUGIN_SPECS "playit-minecraft-plugin" none
        (enablePlugin PLUGIN_SPECS "playit-minecraft-plugin" none
          initialPluginState).2).2).1).Nodup := by
  constructor
  · rfl
  · decide

/-- C4 amended: a successful enablePlugin call appends the filename
unconditionally, so the read-back list equals the previous read-back list
with the filename appended at the end — order preserved, and a duplicate
occurrence appended when the plugin was already present. -/
theorem enablePlugin_appends (specs : List PluginSpecMeta) (f : String)
    (e : Option (List (String × Option String))) (s s' : PluginListState)
    (h : enablePlugin specs f e s = (Except.ok (), s')) :
    (pluginFilenamesToEnable s').1 = (pluginFilenamesToEnable s).1 ++ [f] := by
  unfold enablePlugin at h
  cases e with
  | none =>
    dsimp only at h
    split at h
    · split at h
      · exact absurd (congrArg Prod.fst h) (by simp)
      · have hs : s' = setPluginFilenamesToEnable (pluginFilenamesToEnable s).2
            ((pluginFilenamesToEnable s).1 ++ [f]) := (congrArg Prod.snd h).symm
        rw [hs, fst_getter_setter]
    · have hs : s' = setPluginFilenamesToEnable (pluginFilenamesToEnable s).2
          ((pluginFilenamesToEnable s).1 ++ [f]) := (congrArg Prod.snd h).symm
      rw [hs, fst_getter_setter]
  | some ev =>
    dsimp only at h
    split at h
    · split at h
      · exact absurd (congrArg Prod.fst h) (by simp)
      · have hs : s' = setPluginFilenamesToEnable
            (pluginFilenamesToEnable (setConfiguredPluginEnv s f ev)).2
            ((pluginFilenamesToEnable (setConfiguredPluginEnv s f ev)).1 ++ [f]) :=
          (congrArg Prod.snd h).symm
        rw [hs, fst_getter_setter, pluginFilenames_setConfiguredPluginEnv]
    · have hs : s' = setPluginFilenamesToEnable
          (pluginFilenamesToEnable (setConfiguredPluginEnv s f ev)).2
          ((pluginFilenamesToEnable (setConfiguredPluginEnv s f ev)).1 ++ [f]) :=
        (congrArg Prod.snd h).symm
      rw [hs, fst_getter_setter, pluginFilenames_setConfiguredPluginEnv]

theorem enablePlugin_appends_witness :
    (pluginFilenamesToEnable (enablePlugin PLUGIN_SPECS "playit-minecraft-plugin" none
        initialPluginState).2).1
      = (pluginFilenamesToEnable initialPluginState).1 ++ ["playit-minecraft-plugin"] :=
  enablePlugin_appends PLUGIN_SPECS "playit-minecraft-plugin" none initialPluginState
    (enablePlugin PLUGIN_SPECS "playit-minecraft-plugin" none initialPluginState).2 rfl

/-- C7: when, after persisting any supplied env, some required key of the
plugin is absent or blank, enablePlugin throws the error naming exactly the
absent-or-blank required keys (the filter selecting all of them and only
them) and the enabled-plugins list reads back unchanged.  The catalog is a
parameter because the compiled-in `PLUGIN_SPECS` entries all declare empty
`requiredEnv`, which would make the property vacuous. -/
theorem enablePlugin_missing_env_fails (specs : List PluginSpecMeta) (f : String)
    (e : Option (List (String × Option String))) (s s1 : PluginListState)
    (hs1 : s1 = (match e with
      | some ev => setConfiguredPluginEnv s f ev
      | none => s))
    (hmiss : ∃ r ∈ getRequiredEnvForPlugin specs f,
      envBlank (objGet (getConfiguredPluginEnv s1 f) r.name) = true) :
    enablePlugin specs f e s = (Except.error ("Cannot enable plugin " ++ f ++
        ": missing required environment variables: " ++
        String.intercalate ", " (((getRequiredEnvForPlugin specs f).filter
          (fun r => envBlank (objGet (getConfiguredPluginEnv s1 f) r.name))).map
          (fun r => r.name))), s1)
    ∧ (pluginFilenamesToEnable s1).1 = (pluginFilenamesToEnable s).1 := by
  obtain ⟨r, hr, hblank⟩ := hmiss
  have hreq : (getRequiredEnvForPlugin specs f).length > 0 :=
    List.length_pos.mpr (List.ne_nil_of_mem hr)
  have hmem : r ∈ (getRequiredEnvForPlugin specs f).filter
      (fun q => envBlank (objGet (getConfiguredPluginEnv s1 f) q.name)) :=
    List.mem_filter.mpr ⟨hr, hblank⟩
  have hlen : ((getRequiredEnvForPlugin specs f).filter
      (fun q => envBlank (objGet (getConfiguredPluginEnv s1 f) q.name))).length > 0 :=
    List.length_pos.mpr (List.ne_nil_of_mem hmem)
  cases e with
  | none =>
    have hs : s1 = s := hs1
    subst hs
    refine ⟨?_, rfl⟩
    unfold enablePlugin
    dsimp only
    rw [if_pos hreq, if_pos hlen]
  | some ev =>
    have hs : s1 = setConfiguredPluginEnv s f ev := hs1
    subst hs
    refine ⟨?_, pluginFilenames_setConfiguredPluginEnv s f ev⟩
    unfold enablePlugin
    dsimp only
    rw [if_pos hreq, if_pos hlen]

theorem enablePlugin_missing_env_fails_witness :
    enablePlugin [⟨"testplugin", "Test", [⟨"API_KEY", "the key"⟩]⟩] "testplugin" none
        initialPluginState
      = (Except.error ("Cannot enable plugin " ++ "testplugin" ++
          ": missing required environment variables: " ++
          String.intercalate ", "
            (((getRequiredEnvForPlugin [⟨"testplugin", "Test", [⟨"API_KEY", "the key"⟩]⟩]
                "testplugin").filter (fun r => envBlank
                  (objGet (getConfiguredPluginEnv initialPluginState "testplugin")
                    r.name))).map (fun r => r.name))), initialPluginState)
    ∧ (pluginFilenamesToEnable initialPluginState).1
        = (pluginFilenamesToEnable initialPluginState).1 :=
  enablePlugin_missing_env_fails [⟨"testplugin", "Test", [⟨"API_KEY", "the key"⟩]⟩]
    "testplugin" none initialPluginState initialPluginState rfl
    ⟨⟨"API_KEY", "the key"⟩, by decide, by decide⟩

/-- JS `a ?? b`-style fallback on Option, used to state lookup equations. -/
def optOr (a b : Option String) : Option String :=
  match a with
  | some v => some v
  | none => b

/-- The last non-null value supplied for key `k` by an env-entry list
(`none` entries model null/undefined values, which the source skips). -/
def lastSome (e : List (String × Option String)) (k : String) : Option String :=
  match e with
  | [] => none
  | kv :: rest => optOr (lastSome rest k) (if kv.1 = k then kv.2 else none)

theorem objGet_applyEnvEntries (e : List (String × Option String))
    (o : List (String × String)) (k : String) :
    objGet (applyEnvEntries o e) k = optOr (lastSome e k) (objGet o k) := by
  induction e generalizing o with
  | nil => rfl
  | cons kv rest ih =>
    obtain ⟨k1, v1⟩ := kv
    cases v1 with
    | none =>
      rw [show applyEnvEntries o ((k1, none) :: rest) = applyEnvEntries o rest from rfl, ih]
      cases hl : lastSome rest k with
      | some w => simp [lastSome, optOr, hl]
      | none => simp [lastSome, optOr, hl]
    | some v =>
      rw [show applyEnvEntries o ((k1, some v) :: rest)
          = applyEnvEntries (objSet o k1 v) rest from rfl, ih]
      cases hl : lastSome rest k with
      | some w => simp [lastSome, optOr, hl]
      | none =>
        simp only [lastSome, optOr, hl]
        by_cases hk : k1 = k
        · subst hk
          rw [if_pos rfl, objGet_objSet_self]
        · rw [if_neg hk, objGet_objSet_ne _ _ _ _ (fun hh => hk hh.symm)]

theorem objGet_mergeObj (p o : List (String × String)) (k : String)
    (hnd : (objKeys p).Nodup) :
    objGet (mergeObj o p) k = optOr (objGet p k) (objGet o k) := by
  induction p generalizing o with
  | nil => rfl
  | cons q rest ih =>
    obtain ⟨k1, v1⟩ := q
    simp only [objKeys, List.map_cons, List.nodup_cons] at hnd
    rw [show mergeObj o ((k1, v1) :: rest) = mergeObj (objSet o k1 v1) rest from rfl,
      ih _ hnd.2]
    simp only [objGet]
    by_cases hk : k1 = k
    · subst hk
      have hrest : objGet rest k1 = none := by
        apply objGet_eq_none_of_not_mem_keys
        simpa [objKeys] using hnd.1
      rw [if_pos rfl, hrest, objGet_objSet_self]
      rfl
    · rw [if_neg hk, objGet_objSet_ne _ _ _ _ (fun hh => hk hh.symm)]

theorem nodupKeys_applyEnvEntries (e : List (String × Option String))
    (o : List (String × String)) (h : (objKeys o).Nodup) :
    (objKeys (applyEnvEntries o e)).Nodup := by
  induction e generalizing o with
  | nil => exact h
  | cons kv rest ih =>
    obtain ⟨k1, v1⟩ := kv
    cases v1 with
    | none => exact ih _ h
    | some v => exact ih _ (nodupKeys_objSet _ _ _ h)

theorem nodupKeys_mergeObj (p o : List (String × String))
    (h : (objKeys o).Nodup) : (objKeys (mergeObj o p)).Nodup := by
  induction p generalizing o with
  | nil => exact h
  | cons q rest ih => exact ih _ (nodupKeys_objSet _ _ _ h)

theorem getConfiguredPluginEnv_setConfiguredPluginEnv (s : PluginListState)
    (f : String) (e : List (String × Option String)) :
    getConfiguredPluginEnv (setConfiguredPluginEnv s f e) f
      = mergeObj (getConfiguredPluginEnv s f)
          (applyEnvEntries (getConfiguredPluginEnv s f) e) := by
  unfold getConfiguredPluginEnv setConfiguredPluginEnv
  dsimp only
  rw [objGet_objSet_self]
  rfl

theorem objGet_setPluginEnv (s : PluginListState) (f : String)
    (e : List (String × Option String)) (k : String)
    (hnd : (objKeys (getConfiguredPluginEnv s f)).Nodup) :
    objGet (getConfiguredPluginEnv (setPluginEnv f e s) f) k
      = optOr (lastSome e k) (objGet (getConfiguredPluginEnv s f) k) := by
  rw [setPluginEnv, getConfiguredPluginEnv_setConfiguredPluginEnv,
    objGet_mergeObj _ _ _ (nodupKeys_applyEnvEntries _ _ hnd),
    objGet_applyEnvEntries]
  cases lastSome e k with
  | some w => rfl
  | none =>
    cases objGet (getConfiguredPluginEnv s f) k with
    | some v => rfl
    | none => rfl

/-- C8: setPluginEnv merges and never deletes: after setting `e1` then `e2`
for the same plugin, every key reads back as the last non-null value from
`e2`, else the last non-null value from `e1`, else whatever was stored
before — so later maps win on shared keys, earlier keys are retained, and
null/undefined entries are never stored.  The hypothesis is the JS invariant
that an object has no duplicate keys. -/
theorem setPluginEnv_merges (s : PluginListState) (f : String)
    (e1 e2 : List (String × Option String)) (k : String)
    (hnd : (objKeys (getConfiguredPluginEnv s f)).Nodup) :
    objGet (getConfiguredPluginEnv (setPluginEnv f e2 (setPluginEnv f e1 s)) f) k
      = optOr (lastSome e2 k)
          (optOr (lastSome e1 k) (objGet (getConfiguredPluginEnv s f) k)) := by
  have hnd1 : (objKeys (getConfiguredPluginEnv (setPluginEnv f e1 s) f)).Nodup := by
    rw [setPluginEnv, getConfiguredPluginEnv_setConfiguredPluginEnv]
    exact nodupKeys_mergeObj _ _ hnd
  rw [objGet_setPluginEnv _ _ _ _ hnd1, objGet_setPluginEnv _ _ _ _ hnd]

theorem setPluginEnv_merges_witness :
    objGet (getConfiguredPluginEnv (setPluginEnv "p" [("B", some "2")]
        (setPluginEnv "p" [("A", some "1")] initialPluginState)) "p") "A"
      = optOr (lastSome [("B", some "2")] "A")
          (optOr (lastSome [("A", some "1")] "A")
            (objGet (getConfiguredPluginEnv initialPluginState "p") "A"))
    ∧ objGet (getConfiguredPluginEnv (setPluginEnv "p" [("B", some "2")]
        (setPluginEnv "p" [("A", some "1")] initialPluginState)) "p") "B"
      = optOr (lastSome [("B", some "2")] "B")
          (optOr (lastSome [("A", some "1")] "B")
            (objGet (getConfiguredPluginEnv initialPluginState "p") "B")) :=
  ⟨setPluginEnv_merges initialPluginState "p" [("A", some "1")] [("B", some "2")]
      "A" (by decide),
   setPluginEnv_merges initialPluginState "p" [("A", some "1")] [("B", some "2")]
      "B" (by decide)⟩


/-!  ## Launch environment (`envVars` and the merge loop in `start()`)

`CoreEnv` carries the worker-environment bindings referenced by the
`envVars` initializer; the merge loop of `start()` iterates all configured
plugin env objects and assigns each entry whose value differs from the
current one (`if (this.envVars[key] !== value)`). -/

structure CoreEnv where
  TS_AUTHKEY : String
  R2_ACCESS_KEY_ID : String
  R2_SECRET_ACCESS_KEY : String
  R2_ENDPOINT : String
  R2_BUCKET_NAME : String

/-- The `envVars` field initializer, in source order. -/
def envVarsInit (e : CoreEnv) (optionalPlugins : String) : List (String × String) :=
  [("TS_EXTRA_ARGS", "--advertise-exit-node"),
   ("TS_ENABLE_HEALTH_CHECK", "true"),
   ("TS_LOCAL_ADDR_PORT", "0.0.0.0:8080"),
   ("TS_AUTHKEY", e.TS_AUTHKEY),
   ("TYPE", "PAPER"),
   ("EULA", "TRUE"),
   ("SERVER_HOST", "0.0.0.0"),
   ("ONLINE_MODE", "false"),
   ("ENABLE_RCON", "true"),
   ("RCON_PASSWORD", "minecraft"),
   ("RCON_PORT", "25575"),
   ("INIT_MEMORY", "2G"),
   ("MAX_MEMORY", "4G"),
   ("AWS_ACCESS_KEY_ID", e.R2_ACCESS_KEY_ID),
   ("AWS_SECRET_ACCESS_KEY", e.R2_SECRET_ACCESS_KEY),
   ("AWS_ENDPOINT_URL", e.R2_ENDPOINT),
   ("DYNMAP_BUCKET", e.R2_BUCKET_NAME),
   ("OPTIONAL_PLUGINS", optionalPlugins)]

/-- The plugin-env injection loop of `start()`: for every configured plugin
and every configured key, assign the value whenever the current `envVars`
value differs from it. -/
def injectPluginEnv (envVars : List (String × String))
    (allPluginEnv : List (String × List (String × String))) : List (String × String) :=
  allPluginEnv.foldl (fun ev pe =>
    pe.2.foldl (fun ev2 kv =>
      if objGet ev2 kv.1 ≠ some kv.2 then objSet ev2 kv.1 kv.2 else ev2) ev) envVars

/-- C6 (code bug): a configured plugin env that sets the core-reserved key
RCON_PASSWORD to a different value overwrites the core value after the
merge in `start()`, because the guard `envVars[key] !== value` assigns
whenever the values differ — contradicting its own comment, which says the
key is only set when not already defined so that core worker env wins. -/
theorem start_merge_overrides_core_env :
    objGet (envVarsInit ⟨"ts", "ak", "sk", "ep", "bucket"⟩ "Dynmap-3.7-beta-11-spigot")
        "RCON_PASSWORD" = some "minecraft"
    ∧ objGet (injectPluginEnv
        (envVarsInit ⟨"ts", "ak", "sk", "ep", "bucket"⟩ "Dynmap-3.7-beta-11-spigot")
        (getAllConfiguredPluginEnv (setConfiguredPluginEnv initialPluginState
          "Dynmap-3.7-beta-11-spigot" [("RCON_PASSWORD", some "hacked")])))
        "RCON_PASSWORD" = some "hacked" :=
  ⟨rfl, rfl⟩

/-!  ## RCON connection supervision (`initRcon`, `getRconStatus`)

`RconState` holds the in-memory `rcon` promise slot (`Option Unit`: a held
connection) and `lastRconSuccess` (epoch milliseconds).  `RconWorld` fixes
one execution's observations of the environment: the raw container status,
whether `getTcpPort` succeeds, whether `connect()` resolves, what the
`isConnected()` probe reports, `Date.now()`, and the outcome of
`send("list")` on an already-held connection (`none` models a rejection).
`Except.error ()` models a JavaScript exception reaching the caller. -/

inductive RawStatus where
  | running
  | healthy
  | starting
  | stopping
  | stopped
  | stopped_with_code
deriving DecidableEq

structure RconState where
  rcon : Option Unit
  lastRconSuccess : Option Nat
deriving DecidableEq

structure RconWorld where
  status : RawStatus
  portAvailable : Bool
  connectOk : Bool
  isConnectedResult : Bool
  now : Nat
  sendListResult : Option String
deriving DecidableEq

/-- The staleness condition of `initRcon` exactly as JavaScript parses it:
`this.lastRconSuccess?.getTime() ?? 0 < Date.now() - 10000` is
`getTime() ?? (0 < now - 10000)` because `<` binds tighter than `??`; when
a timestamp exists the branch condition is the number itself (truthy unless
zero), otherwise it is the boolean `0 < now - 10000`. -/
def rconStaleCheckTruthy (lastRconSuccess : Option Nat) (now : Nat) : Bool :=
  match lastRconSuccess with
  | some t => t != 0
  | none => decide (0 < now - 10000)

/-- The connection-creation tail of `initRcon`: throws when the TCP port is
unavailable; on connect rejection the promise executor clears `this.rcon`
and the awaited result is the rejection; on success both fields are set. -/
def initRconConnect (w : RconWorld) (s : RconState) (probed : Bool) :
    Except Unit (Option Unit) × RconState × Bool :=
  if w.portAvailable then
    if w.connectOk then (Except.ok (some ()), ⟨some (), some w.now⟩, probed)
    else (Except.error (), ⟨none, s.lastRconSuccess⟩, probed)
  else (Except.error (), s, probed)

/-- `initRcon`: returns null when the raw container status is stopped or
stopping; with a held connection, probes `isConnected()` when the (buggy)
staleness condition is truthy — on probe success refreshes the timestamp,
on failure discards the connection and reconnects; with no held connection
it connects.  The final component records whether the `isConnected()` probe
was issued. -/
def initRcon (w : RconWorld) (s : RconState) :
    Except Unit (Option Unit) × RconState × Bool :=
  if w.status = RawStatus.stopped ∨ w.status = RawStatus.stopping then
    (Except.ok none, s, false)
  else
    match s.rcon with
    | some _ =>
      if rconStaleCheckTruthy s.lastRconSuccess w.now then
        if w.isConnectedResult then (Except.ok (some ()), ⟨some (), some w.now⟩, true)
        else initRconConnect w ⟨none, none⟩ true
      else (Except.ok (some ()), s, false)
    | none => initRconConnect w s false

/-- C5 (code bug): with a held connection validated zero seconds ago
(`lastRconSuccess = now = 1000000`, well within the 10-second window) the
liveness probe is still issued (third component true), and when the probe
reports failure the connection is even discarded and re-created — the
else-branch that reuses the connection without a probe is unreachable for
any nonzero timestamp. -/
theorem initRcon_probe_bug :
    (initRcon ⟨RawStatus.running, true, true, true, 1000000, none⟩
        ⟨some (), some 1000000⟩).2.2 = true
    ∧ initRcon ⟨RawStatus.running, true, true, false, 1000000, none⟩
        ⟨some (), some 1000000⟩
      = (Except.ok (some ()), ⟨some (), some 1000000⟩, true) :=
  ⟨rfl, rfl⟩

structure RconStatusResult where
  online : Bool
  playerCount : Option Nat
  maxPlayers : Option Nat
deriving DecidableEq

def matchLiteral : List Char → List Char → Option (List Char)
  | [], cs => some cs
  | _ :: _, [] => none
  | l :: ls, c :: cs => if c = l then matchLiteral ls cs else none

def takeDigits : List Char → List Char × List Char
  | [] => ([], [])
  | c :: cs =>
    if c.isDigit then
      let r := takeDigits cs
      (c :: r.1, r.2)
    else ([], c :: cs)

def digitsToNat (ds : List Char) : Nat :=
  ds.foldl (fun acc c => acc * 10 + (c.toNat - 48)) 0

/-- One attempt of the regex
`There are (\d+) of a max of (\d+) players online` at the head of the
character list. -/
def matchListPatternAt (cs : List Char) : Option (Nat × Nat) :=
  match matchLiteral "There are ".data cs with
  | none => none
  | some cs1 =>
    let d1 := takeDigits cs1
    if d1.1.isEmpty then none
    else match matchLiteral " of a max of ".data d1.2 with
      | none => none
      | some cs2 =>
        let d2 := takeDigits cs2
        if d2.1.isEmpty then none
        else match matchLiteral " players online".data d2.2 with
          | none => none
          | some _ => some (digitsToNat d1.1, digitsToNat d2.1)

/-- `String.prototype.match` scanning: first position where the pattern
matches. -/
def searchListPattern : List Char → Option (Nat × Nat)
  | [] => matchListPatternAt []
  | c :: cs =>
    match matchListPatternAt (c :: cs) with
    | some r => some r
    | none => searchListPattern cs

/-- Parsing the `list` response in `getRconStatus`: a successful send always
reports online, with player counts when the regex matches. -/
def parseListResponse (resp : String) : RconStatusResult :=
  match searchListPattern resp.data with
  | some nm => ⟨true, some nm.1, some nm.2⟩
  | none => ⟨true, none, none⟩

/-- `getRconStatus`: with no held connection it awaits `initRcon()` — a
null result reports offline, a connection reports online, and a rejection
propagates (the first block sits outside the try/catch); with a held
connection it sends `list` inside the try/catch, downgrading a send failure
to offline. -/
def getRconStatus (w : RconWorld) (s : RconState) :
    Except Unit RconStatusResult × RconState :=
  match s.rcon with
  | none =>
    match initRcon w s with
    | (Except.error e, s1, _) => (Except.error e, s1)
    | (Except.ok none, s1, _) => (Except.ok ⟨false, none, none⟩, s1)
    | (Except.ok (some _), s1, _) => (Except.ok ⟨true, none, none⟩, s1)
  | some _ =>
    match w.sendListResult with
    | none => (Except.ok ⟨false, none, none⟩, s)
    | some resp => (Except.ok (parseListResponse resp), s)

/-- C9 counterexample: the sandbox is running but the RCON port is
unavailable, so the control connection cannot be established — yet
getRconStatus evaluates to a propagated exception, not to the degraded
payload with online false. -/
theorem getRconStatus_connect_failure_cex :
    (getRconStatus ⟨RawStatus.running, false, true, true, 5, none⟩ ⟨none, none⟩).1
      = Except.error () :=
  rfl

/-- C9 amended: getRconStatus returns the degraded payload (online false)
without an exception when initRcon yields null (raw status stopped or
stopping) and when the `list` send on a held connection fails; but when no
connection is held and establishment itself fails — port unavailable or
connect rejection — the exception propagates to the caller. -/
theorem getRconStatus_degraded (w : RconWorld) (s : RconState) :
    (s.rcon = none → (w.status = RawStatus.stopped ∨ w.status = RawStatus.stopping) →
      getRconStatus w s = (Except.ok ⟨false, none, none⟩, s))
    ∧ (s.rcon = some () → w.sendListResult = none →
      getRconStatus w s = (Except.ok ⟨false, none, none⟩, s))
    ∧ (s.rcon = none → ¬(w.status = RawStatus.stopped ∨ w.status = RawStatus.stopping) →
      (w.portAvailable = false ∨ w.connectOk = false) →
      (getRconStatus w s).1 = Except.error ()) := by
  obtain ⟨rc, last⟩ := s
  refine ⟨?_, ?_, ?_⟩
  · intro hrc hstop
    have h1 : rc = none := hrc
    subst h1
    unfold getRconStatus initRcon
    rw [if_pos hstop]
  · intro hrc hsend
    have h1 : rc = some () := hrc
    subst h1
    unfold getRconStatus
    rw [hsend]
  · intro hrc hnstop hfail
    have h1 : rc = none := hrc
    subst h1
    unfold getRconStatus initRcon initRconConnect
    rw [if_neg hnstop]
    rcases hfail with hport | hconn
    · rw [hport]
      rfl
    · cases hpa : w.portAvailable with
      | false => rfl
      | true =>
        rw [hconn]
        rfl

theorem getRconStatus_degraded_witness :
    getRconStatus ⟨RawStatus.stopped, true, true, true, 0, none⟩ ⟨none, none⟩
      = (Except.ok ⟨false, none, none⟩, ⟨none, none⟩)
    ∧ getRconStatus ⟨RawStatus.running, true, true, true, 0, none⟩ ⟨some (), some 0⟩
      = (Except.ok ⟨false, none, none⟩, ⟨some (), some 0⟩)
    ∧ (getRconStatus ⟨RawStatus.running, false, true, true, 0, none⟩ ⟨none, none⟩).1
      = Except.error () :=
  ⟨(getRconStatus_degraded ⟨RawStatus.stopped, true, true, true, 0, none⟩
      ⟨none, none⟩).1 rfl (Or.inl rfl),
   (getRconStatus_degraded ⟨RawStatus.running, true, true, true, 0, none⟩
      ⟨some (), some 0⟩).2.1 rfl rfl,
   (getRconStatus_degraded ⟨RawStatus.running, false, true, true, 0, none⟩
      ⟨none, none⟩).2.2 rfl (by decide) (Or.inl rfl)⟩

/-!  ## Plugin runtime state (`getPluginState`)

The `getStatus` capability of a catalog plugin performs container I/O
(log fetching), so it is modelled as an oracle from filename to an
`Except`-result; `Except.error ()` models a rejected promise, which the
source downgrades with `.catch` to the no-message status. -/

inductive PluginStatus where
  | noMessage
  | information (message : String)
  | warning (message : String)
  | alert (message : String)
deriving DecidableEq

inductive PluginRuntimeState where
  | ENABLED
  | DISABLED_WILL_ENABLE_AFTER_RESTART
  | ENABLED_WILL_DISABLE_AFTER_RESTART
  | DISABLED
deriving DecidableEq

structure PluginStateEntry where
  filename : String
  displayName : String
  state : PluginRuntimeState
  requiredEnv : List EnvReq
  configuredEnv : List (String × String)
  status : PluginStatus
deriving DecidableEq

/-- JS `"...".split(" ")`: splits on every single space, keeping empty
segments (`"".split(" ")` is `[""]`). -/
def splitCharsSpace : List Char → List (List Char)
  | [] => [[]]
  | c :: cs =>
    match splitCharsSpace cs with
    | [] => [[c]]
    | g :: gs => if c = ' ' then [] :: g :: gs else (c :: g) :: gs

def jsSplitSpace (s : String) : List String :=
  (splitCharsSpace s.data).map String.mk

/-- The body of the `allPlugins.map` in `getPluginState`: looks the spec up
in the catalog, invokes `getStatus` only when the spec exists and the
filename is currently enabled in the launch configuration (catching a
rejection into the no-message status), and derives the four-way state from
desired versus active membership. -/
def pluginStateEntryFor (specs : List PluginSpecMeta)
    (oracle : String → Except Unit PluginStatus)
    (enabledPlugins desiredPlugins : List String) (s : PluginListState)
    (p : PluginSpecMeta) : PluginStateEntry :=
  let spec := specs.find? (fun sp => sp.filename == p.filename)
  let isCurrentlyEnabled := enabledPlugins.contains p.filename
  let status := if spec.isSome && isCurrentlyEnabled then
      match oracle p.filename with
      | Except.ok st => st
      | Except.error _ => PluginStatus.noMessage
    else PluginStatus.noMessage
  let state := if desiredPlugins.contains p.filename then
      (if isCurrentlyEnabled then PluginRuntimeState.ENABLED
        else PluginRuntimeState.DISABLED_WILL_ENABLE_AFTER_RESTART)
    else
      (if isCurrentlyEnabled then PluginRuntimeState.ENABLED_WILL_DISABLE_AFTER_RESTART
        else PluginRuntimeState.DISABLED)
  ⟨p.filename, p.displayName, state, p.requiredEnv,
    getConfiguredPluginEnv s p.filename, status⟩

/-- `getPluginState`: splits `envVars.OPTIONAL_PLUGINS` on spaces as the
active set, reads the desired set through the getter, and maps the catalog
(`listAllPlugins`) through `pluginStateEntryFor`. -/
def getPluginState (specs : List PluginSpecMeta)
    (oracle : String → Except Unit PluginStatus)
    (optionalPluginsEnvVar : String) (s : PluginListState) :
    List PluginStateEntry × PluginListState :=
  let enabledPlugins := jsSplitSpace optionalPluginsEnvVar
  let r := pluginFilenamesToEnable s
  (specs.map (pluginStateEntryFor specs oracle enabledPlugins r.1 r.2), r.2)

/-- C10: every entry returned by getPluginState for a catalog plugin whose
filename is not in the active launch configuration (OPTIONAL_PLUGINS split
on spaces) carries the no-message status — including desired-but-pending
plugins — and a rejected getStatus is downgraded to no-message; moreover
the whole result is unchanged by swapping the status oracle for one that
agrees on the active filenames, so getStatus is consulted only for active
plugins. -/
theorem getPluginState_status_gating (oracle o1 o2 : String → Except Unit PluginStatus)
    (optEnv : String) (s : PluginListState) :
    (∀ e ∈ (getPluginState PLUGIN_SPECS oracle optEnv s).1,
      ((jsSplitSpace optEnv).contains e.filename = false →
        e.status = PluginStatus.noMessage)
      ∧ (oracle e.filename = Except.error () → e.status = PluginStatus.noMessage))
    ∧ ((∀ fn, (jsSplitSpace optEnv).contains fn = true → o1 fn = o2 fn) →
      getPluginState PLUGIN_SPECS o1 optEnv s
        = getPluginState PLUGIN_SPECS o2 optEnv s) := by
  constructor
  · intro e he
    simp only [getPluginState, List.mem_map] at he
    obtain ⟨p, hp, rfl⟩ := he
    constructor
    · intro hnotc
      simp only [pluginStateEntryFor] at hnotc ⊢
      rw [hnotc]
      simp
    · intro herr
      simp only [pluginStateEntryFor] at herr ⊢
      by_cases hc : ((PLUGIN_SPECS.find? (fun sp => sp.filename == p.filename)).isSome
          && (jsSplitSpace optEnv).contains p.filename) = true
      · rw [hc, herr]
        simp
      · rw [Bool.not_eq_true] at hc
        rw [hc]
        simp
  · intro hagree
    simp only [getPluginState]
    refine congrArg (fun l => (l, (pluginFilenamesToEnable s).2)) ?_
    apply List.map_congr_left
    intro p hp
    simp only [pluginStateEntryFor]
    by_cases hc : (jsSplitSpace optEnv).contains p.filename = true
    · rw [hagree p.filename hc]
    · rw [Bool.not_eq_true] at hc
      rw [hc]
      simp

theorem getPluginState_status_gating_witness :
    PluginStateEntry.status ⟨"Dynmap-3.7-beta-11-spigot", "DynMap",
        PluginRuntimeState.DISABLED_WILL_ENABLE_AFTER_RESTART, [], [],
        PluginStatus.noMessage⟩ = PluginStatus.noMessage
    ∧ getPluginState PLUGIN_SPECS (fun _ => Except.error ()) "" initialPluginState
      = getPluginState PLUGIN_SPECS
          (fun fn => if fn = "" then Except.error ()
            else Except.ok (PluginStatus.information "map")) "" initialPluginState :=
  ⟨((getPluginState_status_gating (fun _ => Except.error ())
      (fun _ => Except.error ())
      (fun fn => if fn = "" then Except.error ()
        else Except.ok (PluginStatus.information "map")) "" initialPluginState).1
      ⟨"Dynmap-3.7-beta-11-spigot", "DynMap",
        PluginRuntimeState.DISABLED_WILL_ENABLE_AFTER_RESTART, [], [],
        PluginStatus.noMessage⟩ (by decide)).1 (by decide),
   (getPluginState_status_gating (fun _ => Except.error ())
      (fun _ => Except.error ())
      (fun fn => if fn = "" then Except.error ()
        else Except.ok (PluginStatus.information "map")) "" initialPluginState).2
      (fun fn hfn => by
        have h1 : fn = "" := by
          have h2 := hfn
          simp [jsSplitSpace, splitCharsSpace] at h2
          exact h2
        subst h1
        simp)⟩
